import Mathlib

/-!
Verification of the NetSurf HTML content conversion pipeline
(`content/handlers/html/html.c`).

The C code is shallowly embedded: the `html_content` structure becomes the
Lean structure `HtmlContent`, pure computations (the guard
`html_can_begin_conversion`, the meta-refresh micro-parser, base-element
processing) become Lean functions over `List Char`, and the stateful
conversion state machine (`html_begin_conversion`,
`html_finish_conversion`, `html_box_convert_done`, `html_proceed_to_done`,
`html_process_data`, `html_process_encoding_change`, `html_exec`) becomes
explicit state passing.  Calls into external collaborators (libdom/hubbub
parser, CSS engine, box-tree builder, fetch layer) are modelled by oracle
structures carrying the results those collaborators return, and the side
effects the code requests from them (message broadcasts, dom_to_box
invocations, parser destruction/creation, chunk parsing) are recorded in an
explicit event trace.
-/

namespace NetsurfHtml

/-- C strings from libdom (`dom_string_data`) are modelled as lists of
characters. -/
abbrev Str := List Char

/-- `ascii_is_space` from utils/ascii.h: space, TAB, LF, VT, FF, CR. -/
def ascii_is_space (ch : Char) : Bool :=
  decide (ch.toNat = 32 ∨ ch.toNat = 9 ∨ ch.toNat = 10 ∨ ch.toNat = 11 ∨
          ch.toNat = 12 ∨ ch.toNat = 13)

/-- The check `'0' <= *url && *url <= '9'` on an ASCII character. -/
def isAsciiDigit (ch : Char) : Bool :=
  decide (48 ≤ ch.toNat ∧ ch.toNat ≤ 57)

/-- ASCII lower-casing of one character, the primitive under the
case-insensitive comparisons (`dom_string_caseless_lwc_isequal`,
`strncasecmp`). -/
def asciiLower (ch : Char) : Char :=
  if 65 ≤ ch.toNat ∧ ch.toNat ≤ 90 then Char.ofNat (ch.toNat + 32) else ch

/-- Case-insensitive string equality. -/
def caselessEq (a b : Str) : Bool :=
  (a.map asciiLower) == (b.map asciiLower)

/-- The digit-run consumption of `strtol(url, &new_url, 10)` as html.c
reaches it: the first character is already known to be a digit, so the
call consumes the maximal leading digit run.  Returns the run's exact
decimal value and the unconsumed remainder; strtol's LONG_MAX saturation
and the `(int)` narrowing html.c applies to the returned value are
modelled by `refreshDelay` at the use site. -/
def parseDigits : Str → Nat → Nat × Str
  | [], acc => (acc, [])
  | ch :: rest, acc =>
    if isAsciiDigit ch then parseDigits rest (acc * 10 + (ch.toNat - 48))
    else (acc, ch :: rest)

/-- Decimal value of a digit string (specification-side helper used to
state what `parseDigits` computes). -/
def decimalValue (ds : Str) : Nat :=
  ds.foldl (fun a ch => a * 10 + (ch.toNat - 48)) 0

/-- The `(int)` narrowing of a non-negative long value: reduce modulo
2^32 and reinterpret the result in two's complement. -/
def intOfLong (w : Nat) : Int :=
  if w % 4294967296 < 2147483648 then ((w % 4294967296 : Nat) : Int)
  else ((w % 4294967296 : Nat) : Int) - 4294967296

/-- The delay html.c computes from a parsed digit run (html.c:532-538):
`msg_data.delay = (int) strtol(url, &new_url, 10)` followed by the
lower clamp `if (delay < 1) delay = 1`.  The digit run is non-negative,
so strtol saturates at LONG_MAX (LP64: 2^63 - 1) on overlong runs; the
`(int)` cast then narrows the long value in two's complement; the clamp
turns every result below 1 — including the negative wrapped values —
into 1. -/
def refreshDelay (v : Nat) : Nat :=
  if intOfLong (min v 9223372036854775807) < 1 then 1
  else (intOfLong (min v 9223372036854775807)).toNat

/-- Modelled from the spec: `nsurl_create` (libnsurl, not under src/)
parses a string into an absolute URL.  Modelled as succeeding on any
non-empty string and returning the string itself; the claims only need
success/failure and the resulting text. -/
def nsurl_create (s : Str) : Option Str :=
  if s = [] then none else some s

/-- Whether a URL reference carries a scheme (a colon before any slash);
auxiliary to the modelled `nsurl_join`. -/
def hasScheme (s : Str) : Bool :=
  (s.takeWhile (fun ch => ch != '/')).contains ':'

/-- Everything up to and including the last slash of a URL; auxiliary to
the modelled `nsurl_join`. -/
def upToLastSlash (s : Str) : Str :=
  (s.reverse.dropWhile (fun ch => ch != '/')).reverse

/-- Modelled from the spec: `nsurl_join` (libnsurl, not under src/) joins
a relative reference against a base URL ("A resolved, non-empty URL
string is joined against the document's base URL").  Modelled as: an
empty reference fails, a reference with a scheme stands alone, and any
other reference replaces the segment after the base's last slash. -/
def nsurl_join (base rel : Str) : Option Str :=
  if rel = [] then none
  else if hasScheme rel then some rel
  else some (upToLastSlash base ++ rel)

/-- Content status of the content lifecycle (`content_status`). -/
inductive ContentStatus
  | loading
  | ready
  | done
  | error
deriving DecidableEq

/-- The nserror codes distinguished by the embedded code paths. -/
inductive NsError
  | ok
  | stopped
  | dom
  | nomem
  | encodingChange
  | boxConvert
  | badUrl
  | css
  | hubbub
  | unknown
deriving DecidableEq

/-- Results of the hubbub parser binding calls
(`dom_hubbub_parser_parse_chunk` / `dom_hubbub_parser_completed`):
success, the in-stream-script pause, the encoding-change signal, or any
other hubbub failure. -/
inductive DomHubbubError
  | ok
  | paused
  | encodingChange
  | hubbubErr
deriving DecidableEq

/-- Modelled from the spec: `libdom_hubbub_error_to_nserror`
(utils/libdom, not under src/) maps binding results onto nserror codes;
success maps to OK, the encoding-change signal to the dedicated code, and
everything else to a non-OK hubbub error. -/
def libdom_hubbub_error_to_nserror : DomHubbubError → NsError
  | DomHubbubError.ok => NsError.ok
  | DomHubbubError.encodingChange => NsError.encodingChange
  | DomHubbubError.paused => NsError.hubbub
  | DomHubbubError.hubbubErr => NsError.hubbub

/-- Externally observable actions the code requests from its
collaborators, recorded as an event trace. -/
inductive Event
  | broadcastError (e : NsError)
  | setError
  | setReady
  | setDone
  | broadcastRefresh (delay : Nat)
  | domToBox
  | scriptExec
  | fireLoadEvent
  | statusMsg
  | getDims
  | freeObjects
  | parseChunk (data : Str)
  | destroyParser
  | createParser (enc : Str)
deriving DecidableEq

/-- A stylesheet descriptor; only the `modified` flag ("not yet safe to
use for selection") matters to the conversion guard. -/
structure StylesheetEntry where
  modified : Bool
deriving DecidableEq

/-- A form discovered by `html_forms_get_forms`: its action URL and its
document charset. -/
structure Form where
  action : Option Str
  charset : Option Str
deriving DecidableEq

/-- The hubbub parser binding instance; we track the encoding it was
created with (`parse_params.enc`). -/
structure ParserInst where
  encSetting : Option Str
deriving DecidableEq

/-- The `html_content` structure (fields of `struct content` that the
embedded code touches are inlined: `active`, `status`, `refresh` target). -/
structure HtmlContent where
  /-- `base.active`: the active-fetch counter. -/
  active : Nat
  /-- The stylesheet descriptor array. -/
  stylesheets : List StylesheetEntry
  /-- Sticky abort flag. -/
  aborted : Bool
  /-- Parse-completed flag. -/
  parse_completed : Bool
  /-- Conversion-begun flag. -/
  conversion_begun : Bool
  /-- `c->refresh`: an http-equiv refresh directive was already found. -/
  refresh : Bool
  /-- `c->base.refresh`: the pending refresh target. -/
  base_refresh : Option Str
  /-- `c->base_url`: the document base URL (always set at creation). -/
  base_url : Str
  /-- `c->base_target`: the base target, once set. -/
  base_target : Option Str
  /-- Whether `select_ctx` (the CSS selection context) exists. -/
  select_ctx : Bool
  /-- Whether `jsthread` exists. -/
  jsthread : Bool
  /-- Content lifecycle status. -/
  status : ContentStatus
  /-- `c->encoding`, once resolved. -/
  encoding : Option Str
  /-- `content_get_url(&c->base)`: the document's own URL. -/
  docUrl : Str
  /-- The forms list after retrieval/normalisation. -/
  forms : List Form
  /-- The parser binding, if one currently exists. -/
  parser : Option ParserInst
  /-- Whether a DOM document is currently associated. -/
  document : Bool
  /-- The retained source buffer (`content__get_source_data`). -/
  sourceData : Str
deriving DecidableEq

/-- `html_can_begin_conversion` (html.c:1439): conversion may begin only
when no fetch is active and no stylesheet descriptor is modified.  The C
function only reads the content, which the embedding reflects by being a
pure function of the state. -/
def html_can_begin_conversion (c : HtmlContent) : Bool :=
  if c.active ≠ 0 then false
  else c.stylesheets.all (fun s => !s.modified)

/-- Validation of a base target value (html.c:452): accepted when it does
not begin with an underscore, or is one of `_blank`, `_self`, `_parent`,
`_top` case-insensitively.  The first-character test models
`*dom_string_data(atr_string) != '_'`; for the empty string the C code
reads the NUL terminator, which is not an underscore, so the empty string
passes. -/
def validBaseTarget (t : Str) : Bool :=
  (t.head? != some '_') ||
  caselessEq t ("_blank".toList) ||
  caselessEq t ("_self".toList) ||
  caselessEq t ("_parent".toList) ||
  caselessEq t ("_top".toList)

/-- `html_process_base` (html.c:416).  The element's attributes are
passed as `Option Str` (`none` models an absent attribute /
`dom_element_get_attribute` yielding NULL).  Every parseable href
overwrites `base_url`; the target is only examined while `base_target`
is still unset. -/
def html_process_base (c : HtmlContent) (href target : Option Str) :
    Bool × HtmlContent :=
  let c1 :=
    match href with
    | none => c
    | some h =>
      match nsurl_create h with
      | none => c
      | some u => { c with base_url := u }
  if c1.base_target.isSome then (true, c1)
  else
    match target with
    | none => (true, c1)
    | some t =>
      if validBaseTarget t then (true, { c1 with base_target := some t })
      else (true, c1)

/-- A base element as seen by the mutation observer: its two attributes. -/
structure BaseElem where
  href : Option Str
  target : Option Str
deriving DecidableEq

/-- A sequence of base elements processed in document order through
`html_process_base`. -/
def processBases (c : HtmlContent) (bs : List BaseElem) : HtmlContent :=
  bs.foldl (fun acc b => (html_process_base acc b.href b.target).2) c

/-- Specification-side helper: the base URL produced by the last element
of the list whose href parses, if any ("the last processed base
element's href wins"). -/
def lastHrefUrl : List BaseElem → Option Str
  | [] => none
  | b :: bs =>
    match lastHrefUrl bs with
    | some u => some u
    | none =>
      match b.href with
      | none => none
      | some h => nsurl_create h

/-- Specification-side helper: the target stored by the code policy — the
first target attribute that passes `validBaseTarget` (the empty string
included). -/
def firstCodeTarget : List BaseElem → Option Str
  | [] => none
  | b :: bs =>
    match b.target with
    | some t => if validBaseTarget t then some t else firstCodeTarget bs
    | none => firstCodeTarget bs

/-- The claim's words, for comparison with the code: "the base target is
stored only by the first base element carrying a valid non-empty
target". -/
def claimFirstValidNonEmptyTarget (bs : List BaseElem) : Option Str :=
  (bs.filterMap (fun b =>
    match b.target with
    | some t => if t ≠ [] ∧ validBaseTarget t = true then some t else none
    | none => none)).head?

/-- The meta-refresh micro-parser over the `content` attribute
(html.c:505-659), starting after the http-equiv check. -/
def metaRefreshContent (c : HtmlContent) (content : Str) :
    HtmlContent × NsError × List Event :=
  let url0 := List.dropWhile ascii_is_space content
  match url0 with
  | [] => (c, NsError.ok, [])
  | ch :: _ =>
    if isAsciiDigit ch = false then
      (c, NsError.ok, [])
    else
      let pd := parseDigits url0 0
      let delay := refreshDelay pd.1
      let r2 := List.dropWhile (fun x => isAsciiDigit x || x == '.') pd.2
      let r3 := List.dropWhile ascii_is_space r2
      let r4 := if r3.head? == some ';' then r3.tail else r3
      let r5 := List.dropWhile ascii_is_space r4
      if r5 = [] then
        ({ c with base_refresh := some c.docUrl }, NsError.ok,
         [Event.broadcastRefresh delay])
      else if 3 ≤ r5.length then
        if caselessEq (r5.take 3) ("url".toList) then
          let r6 := List.dropWhile ascii_is_space (r5.drop 3)
          if r6.head? == some '=' then
            let r7 := List.dropWhile ascii_is_space r6.tail
            let quoteOpt : Option Char :=
              if r7.head? == some '"' then some '"'
              else if r7.head? == some '\'' then some '\''
              else none
            let r8 := if quoteOpt.isSome then r7.tail else r7
            let target :=
              match quoteOpt with
              | some q => r8.takeWhile (fun x => x != q)
              | none => r8.takeWhile (fun x => !(ascii_is_space x))
            if target = [] then (c, NsError.ok, [])
            else
              match nsurl_join c.base_url target with
              | some u =>
                ({ c with base_refresh := some u, refresh := true },
                 NsError.ok, [Event.broadcastRefresh delay])
              | none => (c, NsError.badUrl, [])
          else (c, NsError.ok, [])
        else (c, NsError.ok, [])
      else (c, NsError.ok, [])

/-- `html_meta_refresh_process_element` (html.c:469): check the
`http-equiv` attribute is `refresh` (case-insensitively), fetch the
`content` attribute, and run the micro-parser. -/
def html_meta_refresh_process_element (c : HtmlContent)
    (equiv content : Option Str) : HtmlContent × NsError × List Event :=
  match equiv with
  | none => (c, NsError.ok, [])
  | some e =>
    if caselessEq e ("refresh".toList) = false then (c, NsError.ok, [])
    else
      match content with
      | none => (c, NsError.ok, [])
      | some ct => metaRefreshContent c ct

/-- The META arm of `dom_default_action_DOMNodeInserted_cb`
(html.c:871-876): if a refresh directive was already found, ignore the
element; otherwise run the meta-refresh processor (its nserror result is
discarded by the dispatcher). -/
def observerMetaInserted (c : HtmlContent) (equiv content : Option Str) :
    HtmlContent × List Event :=
  if c.refresh then (c, [])
  else
    let r := html_meta_refresh_process_element c equiv content
    (r.1, r.2.2)

/-- Oracle for `html_finish_conversion`'s external calls: selection
context creation, document-root retrieval, and the immediate result of
starting `dom_to_box`. -/
structure FinishOracle where
  selectCtxOk : Bool
  rootOk : Bool
  domToBoxOk : Bool
deriving DecidableEq

/-- `html_finish_conversion` (html.c:717): bail out when aborted
(broadcast STOPPED, terminal error); return silently when a selection
context already exists; otherwise create the selection context, fire the
load event, broadcast the processing status, fetch the root element, and
start `dom_to_box`, turning each failure into a broadcast error plus the
terminal error state. -/
def html_finish_conversion (c : HtmlContent) (o : FinishOracle) :
    HtmlContent × List Event :=
  if c.aborted then
    ({ c with status := ContentStatus.error },
     [Event.broadcastError NsError.stopped, Event.setError])
  else if c.select_ctx then
    (c, [])
  else if o.selectCtxOk = false then
    ({ c with status := ContentStatus.error },
     [Event.broadcastError NsError.css, Event.setError])
  else
    let c1 := { c with select_ctx := true }
    let evs1 := (if c1.jsthread then [Event.fireLoadEvent] else []) ++
                [Event.statusMsg]
    if o.rootOk = false then
      ({ c1 with status := ContentStatus.error },
       evs1 ++ [Event.broadcastError NsError.dom, Event.setError])
    else
      let evs2 := evs1 ++ [Event.getDims, Event.domToBox]
      if o.domToBoxOk = false then
        ({ c1 with status := ContentStatus.error },
         evs2 ++ [Event.freeObjects, Event.broadcastError NsError.boxConvert,
                  Event.setError])
      else
        (c1, evs2)

/-- `html_proceed_to_done` (html.c:277): in READY, transition to DONE
exactly when no fetch is active; DONE and LOADING are no-ops; any other
status is unexpected. -/
def html_proceed_to_done (c : HtmlContent) :
    HtmlContent × NsError × List Event :=
  match c.status with
  | ContentStatus.ready =>
    if c.active = 0 then
      ({ c with status := ContentStatus.done }, NsError.ok, [Event.setDone])
    else (c, NsError.unknown, [])
  | ContentStatus.done => (c, NsError.ok, [])
  | ContentStatus.loading => (c, NsError.ok, [])
  | ContentStatus.error => (c, NsError.unknown, [])

/-- Oracle for `html_box_convert_done`'s external calls: document-root
retrieval and image-map extraction. -/
structure BoxDoneOracle where
  rootOk : Bool
  imagemapOk : Bool
deriving DecidableEq

/-- `html_box_convert_done` (html.c:209): on failure or abort, release
the fetched objects, broadcast BOX_CONVERT or STOPPED, and set the
terminal error; otherwise extract image maps, destroy the parser
binding, set READY, and proceed towards DONE. -/
def html_box_convert_done (c : HtmlContent) (success : Bool)
    (o : BoxDoneOracle) : HtmlContent × List Event :=
  if success = false ∨ c.aborted then
    ({ c with status := ContentStatus.error },
     [Event.freeObjects,
      Event.broadcastError
        (if success = false then NsError.boxConvert else NsError.stopped),
      Event.setError])
  else if o.rootOk = false then
    ({ c with status := ContentStatus.error },
     [Event.broadcastError NsError.dom, Event.setError])
  else if o.imagemapOk = false then
    ({ c with status := ContentStatus.error },
     [Event.freeObjects, Event.broadcastError NsError.unknown,
      Event.setError])
  else
    let c1 := { c with parser := none, status := ContentStatus.ready }
    let pd := html_proceed_to_done c1
    (pd.1, [Event.destroyParser, Event.setReady] ++ pd.2.2)

/-- Normalisation of the retrieved forms (html.c:1571-1617): every action
is made absolute against the base URL (an absent or empty action resolves
the document's own URL, HTML5 4.10.22.3 step 9), and each form missing a
document charset is stamped with the document encoding.  A failing join
aborts the whole loop with its error. -/
def processForms (base docUrl enc : Str) : List Form → Option (List Form)
  | [] => some []
  | f :: fs =>
    let actSrc :=
      match f.action with
      | none => docUrl
      | some [] => docUrl
      | some a => a
    match nsurl_join base actSrc with
    | none => none
    | some act =>
      match processForms base docUrl enc fs with
      | none => none
      | some fs2 =>
        some ({ action := some act,
                charset :=
                  match f.charset with
                  | none => some enc
                  | some cs => some cs } :: fs2)

/-- Oracle for `html_begin_conversion`'s external calls: the result of
`dom_hubbub_parser_completed`, the content mutations its callbacks
perform (new fetches and stylesheets, reflected as the post-completion
active counter and stylesheet list), the parser-detected encoding, the
document root's node name, the retrieved forms, and the oracle for the
nested `html_finish_conversion`. -/
structure BeginOracle where
  completedResult : DomHubbubError
  activeAfter : Nat
  sheetsAfter : List StylesheetEntry
  detectedEncoding : Option Str
  rootName : Option Str
  forms : List Form
  finish : FinishOracle
deriving DecidableEq

/-- The part of `html_begin_conversion` after parse completion
(html.c:1501-1625): re-check the guard, honour the abort flag (set the
terminal error and broadcast STOPPED), mark conversion begun, run pending
scripts, resolve the encoding, validate the root element is `html`,
normalise the forms, and — only if no fetch is active — finish the
conversion. -/
def html_begin_conversion_tail (c0 : HtmlContent) (o : BeginOracle) :
    Bool × HtmlContent × List Event :=
  if html_can_begin_conversion c0 = false then
    (true, c0, [])
  else if c0.aborted then
    (false, { c0 with status := ContentStatus.error },
     [Event.setError, Event.broadcastError NsError.stopped])
  else
    let c1 := { c0 with conversion_begun := true }
    let evs1 := [Event.scriptExec]
    let encRes : Option HtmlContent :=
      match c1.encoding with
      | some _ => some c1
      | none =>
        match o.detectedEncoding with
        | none => none
        | some e => some { c1 with encoding := some e }
    match encRes with
    | none => (false, c1, evs1 ++ [Event.broadcastError NsError.nomem])
    | some c2 =>
      match o.rootName with
      | none => (false, c2, evs1 ++ [Event.broadcastError NsError.dom])
      | some nm =>
        if caselessEq nm ("html".toList) = false then
          (false, c2, evs1 ++ [Event.broadcastError NsError.dom])
        else
          match processForms c2.base_url c2.docUrl (c2.encoding.getD [])
              o.forms with
          | none => (false, c2, evs1 ++ [Event.broadcastError NsError.badUrl])
          | some fs =>
            let c3 := { c2 with forms := fs }
            if c3.active = 0 then
              let fc := html_finish_conversion c3 o.finish
              (true, fc.1, evs1 ++ fc.2)
            else
              (true, c3, evs1)

/-- `html_begin_conversion` (html.c:1458).  When the parse is not yet
complete, `dom_hubbub_parser_completed` is attempted first; its callbacks
may mutate the content (modelled by `activeAfter`/`sheetsAfter`).  A
PAUSED result while fetches are active means a synchronous script came to
light: return success ("try later") without marking the parse complete
and without broadcasting.  Any other non-OK completion result broadcasts
its error and fails.  On success the parse-completed flag is set and the
conversion proceeds. -/
def html_begin_conversion (c : HtmlContent) (o : BeginOracle) :
    Bool × HtmlContent × List Event :=
  if c.parse_completed = false then
    let c1 := { c with active := o.activeAfter,
                       stylesheets := o.sheetsAfter }
    if o.completedResult = DomHubbubError.paused ∧ 0 < c1.active then
      (true, c1, [])
    else if o.completedResult ≠ DomHubbubError.ok then
      (false, c1,
       [Event.broadcastError (libdom_hubbub_error_to_nserror o.completedResult)])
    else
      html_begin_conversion_tail { c1 with parse_completed := true } o
  else
    html_begin_conversion_tail c o

/-- The default encoding the adapter falls back to when the declared
encoding is unsupported. -/
def w1252 : Str := ("Windows-1252".toList)

/-- Oracle for the parser binding calls of the streaming adapter: the
encoding the parser detected (`dom_hubbub_parser_get_encoding`, `none`
models NULL), the success of the two `dom_hubbub_parser_create` attempts,
and the result of re-parsing the retained source. -/
structure EncOracle where
  detected : Option Str
  createDetectedOk : Bool
  createFallbackOk : Bool
  reparseResult : DomHubbubError
deriving DecidableEq

/-- `html_process_encoding_change` (html.c:1273): fetch the detected
encoding, store it, destroy the parser binding and drop the DOM
association, recreate the parser with the new encoding, falling back to
Windows-1252 exactly once if that creation fails; when a parser exists
again, replay the entire retained source buffer through it. -/
def html_process_encoding_change (c : HtmlContent) (o : EncOracle) :
    HtmlContent × NsError × List Event :=
  match o.detected with
  | none => (c, NsError.nomem, [])
  | some enc =>
    let c1 := { c with encoding := some enc, parser := none,
                       document := false }
    if o.createDetectedOk then
      let c2 := { c1 with parser := some ⟨some enc⟩, document := true }
      (c2, libdom_hubbub_error_to_nserror o.reparseResult,
       [Event.destroyParser, Event.createParser enc,
        Event.parseChunk c2.sourceData])
    else
      let c2 := { c1 with encoding := some w1252 }
      if o.createFallbackOk then
        let c3 := { c2 with parser := some ⟨some w1252⟩, document := true }
        (c3, libdom_hubbub_error_to_nserror o.reparseResult,
         [Event.destroyParser, Event.createParser w1252,
          Event.parseChunk c3.sourceData])
      else
        (c2, NsError.hubbub, [Event.destroyParser])

/-- `html_process_data` (html.c:1360).  The content framework retains the
source bytes before invoking the handler, so the chunk is first appended
to the retained buffer; the chunk is fed to the parser (result supplied
by `chunkResult`), an encoding-change signal is handled by
`html_process_encoding_change`, and any remaining error is broadcast with
a failure return. -/
def html_process_data (c : HtmlContent) (data : Str)
    (chunkResult : DomHubbubError) (o : EncOracle) :
    Bool × HtmlContent × List Event :=
  let c0 := { c with sourceData := c.sourceData ++ data }
  let err0 := libdom_hubbub_error_to_nserror chunkResult
  let step :=
    if err0 = NsError.encodingChange then html_process_encoding_change c0 o
    else (c0, err0, ([] : List Event))
  if step.2.1 ≠ NsError.ok then
    (false, step.1,
     Event.parseChunk data :: step.2.2 ++ [Event.broadcastError step.2.1])
  else
    (true, step.1, Event.parseChunk data :: step.2.2)

/-- A DOM node as far as `html_exec` can observe it: the transient script
element it creates, or any pre-existing body child. -/
inductive DomNode
  | script (src : Str)
  | other (id : Nat)
deriving DecidableEq

/-- The document as `html_exec` observes it: the body's child list. -/
structure Doc where
  bodyChildren : List DomNode
deriving DecidableEq

/-- Oracle for the DOM operations `html_exec` performs, one success flag
per fallible libdom call, in call order. -/
structure ExecOracle where
  createStringOk : Bool
  getBodyOk : Bool
  createTextOk : Bool
  createElementOk : Bool
  appendTextOk : Bool
  appendBodyOk : Bool
  getParentOk : Bool
  removeChildOk : Bool
deriving DecidableEq

/-- All of `html_exec`'s DOM operations succeed. -/
def allExecOk (o : ExecOracle) : Bool :=
  o.createStringOk && o.getBodyOk && o.createTextOk && o.createElementOk &&
  o.appendTextOk && o.appendBodyOk && o.getParentOk && o.removeChildOk

/-- `html_exec` (html.c:2710): synthesise a script element holding the
source as a text-node child, append it to the document body, then detach
it again from whatever parent it ended up with.  The result is set to
true as soon as the insertion into the body succeeded; the unwinding
(parent lookup and removal) does not change it.  The script engine may
run the injected source when it observes the insertion; its outcome
(`threw`) is never consulted by this code. -/
def html_exec (doc : Option Doc) (src : Str) (_threw : Bool)
    (o : ExecOracle) : Bool × Option Doc :=
  match doc with
  | none => (false, none)
  | some d =>
    if o.createStringOk = false then (false, some d)
    else if o.getBodyOk = false then (false, some d)
    else if o.createTextOk = false then (false, some d)
    else if o.createElementOk = false then (false, some d)
    else if o.appendTextOk = false then (false, some d)
    else if o.appendBodyOk = false then (false, some d)
    else
      let d1 : Doc := ⟨d.bodyChildren ++ [DomNode.script src]⟩
      if o.getParentOk = false then (true, some d1)
      else if o.removeChildOk = false then (true, some d1)
      else (true, some ⟨d1.bodyChildren.dropLast⟩)

/-- A freshly created HTML content on `http://x/y/`, mid-load. -/
def sampleC : HtmlContent where
  active := 0
  stylesheets := []
  aborted := false
  parse_completed := false
  conversion_begun := false
  refresh := false
  base_refresh := none
  base_url := ("http://x/y/".toList)
  base_target := none
  select_ctx := false
  jsthread := false
  status := ContentStatus.loading
  encoding := some ("UTF-8".toList)
  docUrl := ("http://x/y/".toList)
  forms := []
  parser := some ⟨some ("UTF-8".toList)⟩
  document := true
  sourceData := []

/-- A content whose parse completed and whose user hit stop. -/
def cAborted : HtmlContent :=
  { sampleC with parse_completed := true, aborted := true }

/-- A content that already built its selection context. -/
def cSelected : HtmlContent :=
  { sampleC with select_ctx := true, status := ContentStatus.ready }

/-- Completion oracle reporting the in-stream-script pause with a fetch
active. -/
def oPause : BeginOracle where
  completedResult := DomHubbubError.paused
  activeAfter := 1
  sheetsAfter := []
  detectedEncoding := none
  rootName := some ("html".toList)
  forms := []
  finish := ⟨true, true, true⟩

/-- Completion oracle reporting a plain completion failure. -/
def oFail : BeginOracle :=
  { oPause with completedResult := DomHubbubError.hubbubErr, activeAfter := 0 }

/-- All of `html_finish_conversion`'s collaborators succeed. -/
def finAllOk : FinishOracle := ⟨true, true, true⟩

/-- All of `html_box_convert_done`'s collaborators succeed. -/
def boxAllOk : BoxDoneOracle := ⟨true, true⟩

/-- Encoding oracle: a new encoding is detected and accepted. -/
def encDetOk : EncOracle where
  detected := some ("ISO-8859-2".toList)
  createDetectedOk := true
  createFallbackOk := true
  reparseResult := DomHubbubError.ok

/-- Encoding oracle: the detected encoding is unsupported, the fallback
succeeds. -/
def encFallback : EncOracle := { encDetOk with createDetectedOk := false }

/-- Encoding oracle: both parser creations fail. -/
def encBothFail : EncOracle :=
  { encDetOk with createDetectedOk := false, createFallbackOk := false }

/-- All of `html_exec`'s DOM calls succeed. -/
def execAllOk : ExecOracle := ⟨true, true, true, true, true, true, true, true⟩

/-- A document body with two pre-existing children. -/
def sampleDoc : Doc := ⟨[DomNode.other 0, DomNode.other 1]⟩

/-- Two base elements: the first carries an empty target attribute, the
second the target `_self`. -/
def c6Bases : List BaseElem := [⟨none, some []⟩, ⟨none, some ("_self".toList)⟩]

/-- The http-equiv value `refresh`. -/
def refreshStr : Str := ("refresh".toList)

/-- A delay-only refresh content attribute. -/
def c7meta1 : Str := ("5".toList)

/-- A refresh content attribute with an explicit URL. -/
def c7meta2 : Str := ("1; url=foo.html".toList)

/-- The content after the mutation observer processed the delay-only
refresh directive. -/
def c7mid : HtmlContent :=
  (observerMetaInserted sampleC (some refreshStr) (some c7meta1)).1

/- ---------------------------------------------------------------- -/
/- Helper lemmas                                                    -/
/- ---------------------------------------------------------------- -/

lemma digit_not_space (ch : Char) (h : isAsciiDigit ch = true) :
    ascii_is_space ch = false := by
  unfold isAsciiDigit at h
  unfold ascii_is_space
  rw [decide_eq_true_eq] at h
  rw [decide_eq_false_iff_not]
  omega

lemma parseDigits_all_digits (ds : Str) :
    ∀ acc : Nat, (∀ ch ∈ ds, isAsciiDigit ch = true) →
      parseDigits ds acc =
        (ds.foldl (fun a ch => a * 10 + (ch.toNat - 48)) acc, []) := by
  induction ds with
  | nil => intro acc _; rfl
  | cons ch t ih =>
    intro acc h
    have hch : isAsciiDigit ch = true := h ch (by simp)
    rw [parseDigits, if_pos hch, List.foldl_cons]
    exact ih _ (fun x hx => h x (by simp [hx]))

lemma dropWhile_space_all_digits (ds : Str)
    (h : ∀ ch ∈ ds, isAsciiDigit ch = true) :
    List.dropWhile ascii_is_space ds = ds := by
  cases ds with
  | nil => rfl
  | cons ch t =>
    have hch : isAsciiDigit ch = true := h ch (by simp)
    rw [List.dropWhile_cons, digit_not_space ch hch]
    simp

lemma caselessEq_refresh_refl :
    caselessEq refreshStr ("refresh".toList) = true := by decide

/-- On values an `int` can carry, the saturation and narrowing inside
`refreshDelay` are the identity and only the lower clamp remains. -/
lemma refreshDelay_small (v : Nat) (h : v ≤ 2147483647) :
    refreshDelay v = if v < 1 then 1 else v := by
  have hmod : v % 4294967296 = v := Nat.mod_eq_of_lt (by omega)
  have hio : intOfLong v = (v : Int) := by
    unfold intOfLong
    rw [hmod, if_pos (by omega)]
  unfold refreshDelay
  rw [Nat.min_eq_left (by omega), hio]
  by_cases h0 : v < 1
  · have hz : v = 0 := by omega
    subst hz
    simp
  · have h1 : ¬((v : Int) < 1) := by omega
    rw [if_neg h1, if_neg h0]
    simp

/-- A meta refresh content attribute consisting only of digits produces a
self-refresh: the pending target becomes the document's own URL, the
delay is the value html.c computes from the digit run (saturating
strtol, `(int)` narrowing, lower clamp), and the already-found flag is
untouched. -/
lemma metaRefresh_all_digits (c : HtmlContent) (ds : Str) (hne : ds ≠ [])
    (hdig : ∀ ch ∈ ds, isAsciiDigit ch = true) :
    html_meta_refresh_process_element c (some refreshStr) (some ds) =
      ({ c with base_refresh := some c.docUrl }, NsError.ok,
       [Event.broadcastRefresh (refreshDelay (decimalValue ds))]) := by
  cases ds with
  | nil => exact absurd rfl hne
  | cons ch t =>
    have hch : isAsciiDigit ch = true := hdig ch (by simp)
    have hdw := dropWhile_space_all_digits (ch :: t) hdig
    have hpd := parseDigits_all_digits (ch :: t) 0 hdig
    simp [html_meta_refresh_process_element, caselessEq_refresh_refl,
          metaRefreshContent, hdw, hch, hpd, decimalValue]
    decide

lemma html_process_base_fst (c : HtmlContent) (href target : Option Str) :
    (html_process_base c href target).1 = true := by
  simp only [html_process_base]
  repeat' split
  all_goals rfl

lemma html_process_base_url (c : HtmlContent) (href target : Option Str) :
    (html_process_base c href target).2.base_url =
      (match href with
       | none => c.base_url
       | some h =>
         match nsurl_create h with
         | none => c.base_url
         | some u => u) := by
  cases href with
  | none =>
    simp only [html_process_base]
    repeat' split
    all_goals rfl
  | some h =>
    cases hcr : nsurl_create h with
    | none =>
      simp only [html_process_base, hcr]
      repeat' split
      all_goals rfl
    | some u =>
      simp only [html_process_base, hcr]
      repeat' split
      all_goals rfl

lemma html_process_base_target (c : HtmlContent) (href target : Option Str) :
    (html_process_base c href target).2.base_target =
      (if c.base_target.isSome then c.base_target
       else
         match target with
         | some t => if validBaseTarget t then some t else c.base_target
         | none => c.base_target) := by
  cases href with
  | none =>
    simp only [html_process_base]
    by_cases hb : c.base_target.isSome = true
    · simp [hb]
    · cases target with
      | none => simp [hb]
      | some t =>
        by_cases hv : validBaseTarget t = true <;> simp [hb, hv]
  | some h =>
    cases hcr : nsurl_create h with
    | none =>
      simp only [html_process_base, hcr]
      by_cases hb : c.base_target.isSome = true
      · simp [hb]
      · cases target with
        | none => simp [hb]
        | some t =>
          by_cases hv : validBaseTarget t = true <;> simp [hb, hv]
    | some u =>
      simp only [html_process_base, hcr]
      by_cases hb : c.base_target.isSome = true
      · simp [hb]
      · cases target with
        | none => simp [hb]
        | some t =>
          by_cases hv : validBaseTarget t = true <;> simp [hb, hv]

lemma processBases_cons (c : HtmlContent) (b : BaseElem) (bs : List BaseElem) :
    processBases c (b :: bs) =
      processBases ((html_process_base c b.href b.target).2) bs := rfl

lemma processBases_url (bs : List BaseElem) :
    ∀ c : HtmlContent,
      (processBases c bs).base_url = (lastHrefUrl bs).getD c.base_url := by
  induction bs with
  | nil => intro c; rfl
  | cons b bs ih =>
    intro c
    rw [processBases_cons, ih, html_process_base_url, lastHrefUrl]
    cases hl : lastHrefUrl bs with
    | some u => rfl
    | none =>
      cases hb : b.href with
      | none => simp [hb]
      | some h =>
        cases hcr : nsurl_create h with
        | none => simp [hb, hcr]
        | some u => simp [hb, hcr]

lemma processBases_target_preserved (bs : List BaseElem) :
    ∀ (c : HtmlContent) (t : Str), c.base_target = some t →
      (processBases c bs).base_target = some t := by
  induction bs with
  | nil => intro c t h; exact h
  | cons b bs ih =>
    intro c t h
    rw [processBases_cons]
    refine ih _ t ?_
    rw [html_process_base_target, h]
    rfl

lemma processBases_target (bs : List BaseElem) :
    ∀ c : HtmlContent, c.base_target = none →
      (processBases c bs).base_target = firstCodeTarget bs := by
  induction bs with
  | nil => intro c h; exact h
  | cons b bs ih =>
    intro c h
    rw [processBases_cons]
    have hstep := html_process_base_target c b.href b.target
    rw [h] at hstep
    cases hbt : b.target with
    | none =>
      rw [hbt] at hstep
      simp only [Option.isSome_none, Bool.false_eq_true, if_false] at hstep
      simp only [firstCodeTarget, hbt]
      exact ih _ hstep
    | some t =>
      rw [hbt] at hstep
      simp only [Option.isSome_none, Bool.false_eq_true, if_false] at hstep
      cases hv : validBaseTarget t with
      | false =>
        simp only [hv, Bool.false_eq_true, if_false] at hstep
        simp only [firstCodeTarget, hbt, hv, Bool.false_eq_true, if_false]
        exact ih _ hstep
      | true =>
        simp only [hv, if_true] at hstep
        simp only [firstCodeTarget, hbt, hv, if_true]
        exact processBases_target_preserved bs _ t hstep

/- ---------------------------------------------------------------- -/
/- Claims                                                           -/
/- ---------------------------------------------------------------- -/

/-- C1: `html_can_begin_conversion` returns true exactly when the
active-fetch counter is zero and no stylesheet descriptor is marked
modified.  Being a pure function of the content state, the check
modifies no state. -/
theorem claim_C1 (c : HtmlContent) :
    html_can_begin_conversion c = true ↔
      (c.active = 0 ∧ ∀ s ∈ c.stylesheets, s.modified = false) := by
  unfold html_can_begin_conversion
  by_cases h : c.active = 0
  · simp [h, List.all_eq_true]
  · simp [h]

/-- Witness for C1 at a concrete content, including the spec's test
sequence: counter 2 and counter 1 refuse, counter 0 with a modified
stylesheet refuses, clearing the flag enables. -/
theorem claim_C1_witness :
    html_can_begin_conversion sampleC = true ∧
    html_can_begin_conversion { sampleC with active := 2 } = false ∧
    html_can_begin_conversion { sampleC with active := 1 } = false ∧
    html_can_begin_conversion
      { sampleC with stylesheets := [⟨true⟩] } = false ∧
    html_can_begin_conversion
      { sampleC with stylesheets := [⟨false⟩] } = true := by
  refine ⟨(claim_C1 sampleC).mpr (by decide), by decide, by decide,
          by decide, ?_⟩
  exact (claim_C1 { sampleC with stylesheets := [⟨false⟩] }).mpr (by decide)

/-- C2: while completing the parse, a PAUSED report from the parser with
the active-fetch counter positive makes `html_begin_conversion` return
success without marking the parse complete and without broadcasting;
every other completion failure broadcasts its error and returns false. -/
theorem claim_C2 :
    (∀ (c : HtmlContent) (o : BeginOracle),
      c.parse_completed = false →
      o.completedResult = DomHubbubError.paused →
      0 < o.activeAfter →
      (html_begin_conversion c o).1 = true ∧
      (html_begin_conversion c o).2.1.parse_completed = false ∧
      (html_begin_conversion c o).2.2 = []) ∧
    (∀ (c : HtmlContent) (o : BeginOracle),
      c.parse_completed = false →
      o.completedResult ≠ DomHubbubError.ok →
      ¬(o.completedResult = DomHubbubError.paused ∧ 0 < o.activeAfter) →
      (html_begin_conversion c o).1 = false ∧
      (html_begin_conversion c o).2.2 =
        [Event.broadcastError
          (libdom_hubbub_error_to_nserror o.completedResult)]) := by
  constructor
  · intro c o h1 h2 h3
    unfold html_begin_conversion
    rw [h1]
    simp [h2, h3, h1]
  · intro c o h1 h2 h3
    unfold html_begin_conversion
    rw [h1]
    simp only [eq_self_iff_true, if_true]
    rw [if_neg (by simpa using h3), if_pos (by simpa using h2)]
    exact ⟨rfl, rfl⟩

/-- Witness for C2: the pause-with-active-fetch oracle yields "try
later", the plain-failure oracle yields a false return. -/
theorem claim_C2_witness :
    (html_begin_conversion sampleC oPause).1 = true ∧
    (html_begin_conversion sampleC oFail).1 = false :=
  ⟨(claim_C2.1 sampleC oPause rfl rfl (by decide)).1,
   (claim_C2.2 sampleC oFail rfl (by decide) (by decide)).1⟩

/-- C3: with the aborted flag set, `html_begin_conversion` passing its
guard broadcasts STOPPED, enters the terminal error state and never
reaches `dom_to_box`; `html_finish_conversion` entered with the flag set
behaves the same. -/
theorem claim_C3 :
    (∀ (c : HtmlContent) (o : BeginOracle),
      c.parse_completed = true →
      html_can_begin_conversion c = true →
      c.aborted = true →
      (html_begin_conversion c o).1 = false ∧
      (html_begin_conversion c o).2.1.status = ContentStatus.error ∧
      (html_begin_conversion c o).2.2 =
        [Event.setError, Event.broadcastError NsError.stopped] ∧
      Event.domToBox ∉ (html_begin_conversion c o).2.2) ∧
    (∀ (c : HtmlContent) (o : FinishOracle),
      c.aborted = true →
      html_finish_conversion c o =
        ({ c with status := ContentStatus.error },
         [Event.broadcastError NsError.stopped, Event.setError]) ∧
      Event.domToBox ∉ (html_finish_conversion c o).2) := by
  constructor
  · intro c o h1 h2 h3
    unfold html_begin_conversion html_begin_conversion_tail
    rw [h1]
    simp [h2, h3]
  · intro c o h
    unfold html_finish_conversion
    rw [h]
    simp

/-- Witness for C3 at the aborted sample content. -/
theorem claim_C3_witness :
    (html_begin_conversion cAborted oPause).1 = false ∧
    Event.domToBox ∉ (html_finish_conversion cAborted finAllOk).2 :=
  ⟨(claim_C3.1 cAborted oPause rfl (by decide) rfl).1,
   (claim_C3.2 cAborted finAllOk rfl).2⟩

/-- C4: once a selection context exists, `html_finish_conversion` never
invokes `dom_to_box` again; and after a successful box conversion the
content becomes DONE exactly when the active-fetch counter is zero,
otherwise it stays READY. -/
theorem claim_C4 :
    (∀ (c : HtmlContent) (o : FinishOracle), c.select_ctx = true →
      Event.domToBox ∉ (html_finish_conversion c o).2) ∧
    (∀ (c : HtmlContent) (o : BoxDoneOracle),
      c.aborted = false → o.rootOk = true → o.imagemapOk = true →
      (html_box_convert_done c true o).1.status =
        (if c.active = 0 then ContentStatus.done else ContentStatus.ready)) ∧
    (∀ c : HtmlContent, c.status = ContentStatus.ready →
      (html_proceed_to_done c).1.status =
        (if c.active = 0 then ContentStatus.done else ContentStatus.ready) ∧
      (c.active ≠ 0 → (html_proceed_to_done c).1 = c)) := by
  refine ⟨?_, ?_, ?_⟩
  · intro c o h
    unfold html_finish_conversion
    by_cases ha : c.aborted = true
    · simp [ha]
    · simp [ha, h]
  · intro c o h1 h2 h3
    unfold html_box_convert_done
    simp only [h1, h2, h3]
    unfold html_proceed_to_done
    by_cases hact : c.active = 0 <;> simp [hact]
  · intro c h
    unfold html_proceed_to_done
    rw [h]
    by_cases hact : c.active = 0 <;> simp [hact, h]

/-- Witness for C4: a content with a selection context skips box
construction; a successful box conversion with no active fetch lands in
DONE, with active fetches it stays READY. -/
theorem claim_C4_witness :
    Event.domToBox ∉ (html_finish_conversion cSelected finAllOk).2 ∧
    (html_box_convert_done sampleC true boxAllOk).1.status =
      ContentStatus.done ∧
    (html_proceed_to_done
      { sampleC with status := ContentStatus.ready, active := 2 }).1.status =
      ContentStatus.ready := by
  refine ⟨claim_C4.1 cSelected finAllOk (by decide), ?_, ?_⟩
  · have h := claim_C4.2.1 sampleC boxAllOk rfl rfl rfl
    simpa using h
  · have h := (claim_C4.2.2
      { sampleC with status := ContentStatus.ready, active := 2 } rfl).1
    simpa using h

lemma metaRefresh_equiv_refresh (c : HtmlContent) (ct : Str) :
    html_meta_refresh_process_element c (some refreshStr) (some ct) =
      metaRefreshContent c ct := rfl

/-- C5: meta-refresh parsing.  A content attribute whose first
non-whitespace character is not a digit sets no refresh target at all;
`content="0; url=foo.html"` on base `http://x/y/` yields the delay
clamped to 1 and the joined target `http://x/y/foo.html`; an attribute
that ends after the delay and separators yields a self-refresh (target =
the document's own URL) with the parsed integer clamped below at 1 —
"the parsed integer" being the `int` html.c computes, so the clamp form
holds for every digit run an `int` can carry, while an overflowing run
such as `2147483648` wraps negative through the `(int)` narrowing and is
clamped to 1. -/
theorem claim_C5 :
    (∀ (c : HtmlContent) (ct : Str),
      (∀ ch, (List.dropWhile ascii_is_space ct).head? = some ch →
        isAsciiDigit ch = false) →
      html_meta_refresh_process_element c (some refreshStr) (some ct) =
        (c, NsError.ok, [])) ∧
    (html_meta_refresh_process_element sampleC (some refreshStr)
        (some ("0; url=foo.html".toList)) =
      ({ sampleC with base_refresh := some ("http://x/y/foo.html".toList),
                      refresh := true },
       NsError.ok, [Event.broadcastRefresh 1])) ∧
    (∀ (c : HtmlContent) (ds : Str), ds ≠ [] →
      (∀ ch ∈ ds, isAsciiDigit ch = true) →
      decimalValue ds ≤ 2147483647 →
      html_meta_refresh_process_element c (some refreshStr) (some ds) =
        ({ c with base_refresh := some c.docUrl }, NsError.ok,
         [Event.broadcastRefresh
            (if decimalValue ds < 1 then 1 else decimalValue ds)])) ∧
    (html_meta_refresh_process_element sampleC (some refreshStr)
        (some ("2147483648".toList)) =
      ({ sampleC with base_refresh := some sampleC.docUrl }, NsError.ok,
       [Event.broadcastRefresh 1])) := by
  refine ⟨?_, by decide, ?_, by decide⟩
  · intro c ct h
    rw [metaRefresh_equiv_refresh]
    unfold metaRefreshContent
    cases hd : List.dropWhile ascii_is_space ct with
    | nil => simp [hd]
    | cons ch t =>
      have hc : isAsciiDigit ch = false := h ch (by rw [hd]; rfl)
      simp [hd, hc]
  · intro c ds hne hdig hsmall
    rw [metaRefresh_all_digits c ds hne hdig, refreshDelay_small _ hsmall]

/-- Witness for C5: `content="abc"` yields no refresh; `content="5"`
refreshes the document's own URL after 5 seconds. -/
theorem claim_C5_witness :
    html_meta_refresh_process_element sampleC (some refreshStr)
        (some ("abc".toList)) = (sampleC, NsError.ok, []) ∧
    html_meta_refresh_process_element sampleC (some refreshStr)
        (some c7meta1) =
      ({ sampleC with base_refresh := some sampleC.docUrl }, NsError.ok,
       [Event.broadcastRefresh
          (if decimalValue c7meta1 < 1 then 1 else decimalValue c7meta1)]) := by
  constructor
  · refine claim_C5.1 sampleC _ ?_
    intro ch hch
    have hf : (List.dropWhile ascii_is_space ("abc".toList)).head? =
        some 'a' := by decide
    rw [hf] at hch
    injection hch with h2
    subst h2
    decide
  · exact claim_C5.2.2.1 sampleC c7meta1 (by decide) (by decide) (by decide)

/-- C6 counterexample: the claim says the target is stored only by the
first base element carrying a valid non-empty target, so on the sequence
`target=""` then `target="_self"` it predicts `_self`; the code stores
the empty target (the underscore validation accepts it) and ignores the
rest. -/
theorem claim_C6_counterexample :
    (processBases sampleC c6Bases).base_target = some [] ∧
    claimFirstValidNonEmptyTarget c6Bases = some ("_self".toList) ∧
    (processBases sampleC c6Bases).base_target ≠
      claimFirstValidNonEmptyTarget c6Bases := ⟨by decide, by decide, by decide⟩

/-- C6 as amended: every base element whose href parses overwrites the
base URL (last wins), while the base target is stored by the first base
element whose target attribute passes the underscore validation — which
admits the empty string — and all later targets are ignored. -/
theorem claim_C6 :
    (∀ (c : HtmlContent) (bs : List BaseElem),
      (processBases c bs).base_url = (lastHrefUrl bs).getD c.base_url) ∧
    (∀ (c : HtmlContent) (bs : List BaseElem), c.base_target = none →
      (processBases c bs).base_target = firstCodeTarget bs) :=
  ⟨fun c bs => processBases_url bs c, fun c bs h => processBases_target bs c h⟩

/-- Witness for C6: `/a/` then `/b/` leaves base URL `/b/`; target
`_blank` then `_self` keeps `_blank`. -/
theorem claim_C6_witness :
    (processBases sampleC
      [⟨some ("/a/".toList), none⟩, ⟨some ("/b/".toList), none⟩]).base_url =
      ("/b/".toList) ∧
    (processBases sampleC
      [⟨none, some ("_blank".toList)⟩,
       ⟨none, some ("_self".toList)⟩]).base_target =
      some ("_blank".toList) := by
  constructor
  · rw [claim_C6.1 sampleC
      [⟨some ("/a/".toList), none⟩, ⟨some ("/b/".toList), none⟩]]
    decide
  · rw [claim_C6.2 sampleC
      [⟨none, some ("_blank".toList)⟩, ⟨none, some ("_self".toList)⟩] rfl]
    decide

/-- C7 counterexample: a delay-only refresh directive (content `5`) sets
a pending refresh target, yet a later meta refresh element is not
ignored by the mutation observer — it replaces the pending target —
because the delay-only path never sets the already-found flag. -/
theorem claim_C7_counterexample :
    c7mid.base_refresh.isSome = true ∧
    (observerMetaInserted c7mid (some refreshStr)
        (some c7meta2)).1.base_refresh ≠ c7mid.base_refresh :=
  ⟨by decide, by decide⟩

/-- C7 as amended: once the already-found flag is set — which happens
exactly when a refresh directive with an explicit URL succeeds — every
later meta element is ignored by the mutation observer; a delay-only
directive sets the pending target to the document's own URL but leaves
the flag unchanged, so it does not suppress later directives. -/
theorem claim_C7 :
    (∀ (c : HtmlContent) (equiv content : Option Str), c.refresh = true →
      observerMetaInserted c equiv content = (c, [])) ∧
    (∀ (c : HtmlContent) (ds : Str), ds ≠ [] →
      (∀ ch ∈ ds, isAsciiDigit ch = true) →
      (html_meta_refresh_process_element c (some refreshStr)
          (some ds)).1.refresh = c.refresh ∧
      (html_meta_refresh_process_element c (some refreshStr)
          (some ds)).1.base_refresh = some c.docUrl) ∧
    ((html_meta_refresh_process_element sampleC (some refreshStr)
        (some c7meta2)).1.refresh = true) := by
  refine ⟨?_, ?_, by decide⟩
  · intro c e ct h
    unfold observerMetaInserted
    simp [h]
  · intro c ds hne hdig
    rw [metaRefresh_all_digits c ds hne hdig]
    exact ⟨rfl, rfl⟩

/-- Witness for C7: with the flag set the observer ignores a further
refresh meta; the delay-only directive leaves the flag false. -/
theorem claim_C7_witness :
    observerMetaInserted { sampleC with refresh := true } (some refreshStr)
        (some c7meta2) = ({ sampleC with refresh := true }, []) ∧
    (html_meta_refresh_process_element sampleC (some refreshStr)
        (some c7meta1)).1.refresh = false := by
  refine ⟨claim_C7.1 { sampleC with refresh := true } (some refreshStr)
    (some c7meta2) rfl, ?_⟩
  rw [(claim_C7.2.1 sampleC c7meta1 (by decide) (by decide)).1]
  decide

/-- C8: `html_exec` with a document and successful DOM operations leaves
the body's child list observably unchanged (the transient script is
appended and detached again); its result never depends on whether the
injected script threw; and the result is exactly the conjunction of the
DOM-manipulation successes up to the body insertion. -/
theorem claim_C8 :
    (∀ (d : Doc) (src : Str) (t : Bool) (o : ExecOracle),
      allExecOk o = true → html_exec (some d) src t o = (true, some d)) ∧
    (∀ (doc : Option Doc) (src : Str) (t1 t2 : Bool) (o : ExecOracle),
      html_exec doc src t1 o = html_exec doc src t2 o) ∧
    (∀ (d : Doc) (src : Str) (t : Bool) (o : ExecOracle),
      (html_exec (some d) src t o).1 =
        (o.createStringOk && o.getBodyOk && o.createTextOk &&
         o.createElementOk && o.appendTextOk && o.appendBodyOk)) := by
  refine ⟨?_, ?_, ?_⟩
  · intro d src t o h
    rcases o with ⟨f1, f2, f3, f4, f5, f6, f7, f8⟩
    simp only [allExecOk, Bool.and_eq_true] at h
    obtain ⟨⟨⟨⟨⟨⟨⟨h1, h2⟩, h3⟩, h4⟩, h5⟩, h6⟩, h7⟩, h8⟩ := h
    subst h1; subst h2; subst h3; subst h4
    subst h5; subst h6; subst h7; subst h8
    simp [html_exec, List.dropLast_concat]
  · intro doc src t1 t2 o
    rfl
  · intro d src t o
    rcases o with ⟨f1, f2, f3, f4, f5, f6, f7, f8⟩
    cases f1 <;> cases f2 <;> cases f3 <;> cases f4 <;> cases f5 <;>
      cases f6 <;> cases f7 <;> cases f8 <;> rfl

/-- Witness for C8 at a concrete document and source. -/
theorem claim_C8_witness :
    html_exec (some sampleDoc) ("x=1".toList) false execAllOk =
      (true, some sampleDoc) :=
  claim_C8.1 sampleDoc ("x=1".toList) false execAllOk (by decide)

/-- C9: an encoding-change report makes the adapter fetch the detected
encoding, destroy and recreate the parser with it, and replay the entire
retained source buffer; a failed creation falls back to Windows-1252
exactly once; if that also fails, chunk processing broadcasts the error
and returns failure. -/
theorem claim_C9 :
    (∀ (c : HtmlContent) (data : Str) (o : EncOracle) (e : Str),
      o.detected = some e → o.createDetectedOk = true →
      o.reparseResult = DomHubbubError.ok →
      html_process_data c data DomHubbubError.encodingChange o =
        (true,
         { c with sourceData := c.sourceData ++ data, encoding := some e,
                  parser := some ⟨some e⟩, document := true },
         [Event.parseChunk data, Event.destroyParser, Event.createParser e,
          Event.parseChunk (c.sourceData ++ data)])) ∧
    (∀ (c : HtmlContent) (data : Str) (o : EncOracle) (e : Str),
      o.detected = some e → o.createDetectedOk = false →
      o.createFallbackOk = true → o.reparseResult = DomHubbubError.ok →
      html_process_data c data DomHubbubError.encodingChange o =
        (true,
         { c with sourceData := c.sourceData ++ data, encoding := some w1252,
                  parser := some ⟨some w1252⟩, document := true },
         [Event.parseChunk data, Event.destroyParser, Event.createParser w1252,
          Event.parseChunk (c.sourceData ++ data)])) ∧
    (∀ (c : HtmlContent) (data : Str) (o : EncOracle) (e : Str),
      o.detected = some e → o.createDetectedOk = false →
      o.createFallbackOk = false →
      (html_process_data c data DomHubbubError.encodingChange o).1 = false ∧
      Event.broadcastError NsError.hubbub ∈
        (html_process_data c data DomHubbubError.encodingChange o).2.2) := by
  refine ⟨?_, ?_, ?_⟩
  · intro c data o e h1 h2 h3
    simp [html_process_data, html_process_encoding_change, h1, h2, h3,
          libdom_hubbub_error_to_nserror]
  · intro c data o e h1 h2 h3 h4
    simp [html_process_data, html_process_encoding_change, h1, h2, h3, h4,
          libdom_hubbub_error_to_nserror]
  · intro c data o e h1 h2 h3
    simp [html_process_data, html_process_encoding_change, h1, h2, h3,
          libdom_hubbub_error_to_nserror]

/-- Witness for C9 at a concrete chunk and oracle. -/
theorem claim_C9_witness :
    html_process_data sampleC ("<p>".toList) DomHubbubError.encodingChange
        encDetOk =
      (true,
       { sampleC with sourceData := ("<p>".toList),
                      encoding := some ("ISO-8859-2".toList),
                      parser := some ⟨some ("ISO-8859-2".toList)⟩,
                      document := true },
       [Event.parseChunk ("<p>".toList), Event.destroyParser,
        Event.createParser ("ISO-8859-2".toList),
        Event.parseChunk ("<p>".toList)]) := by
  have h := claim_C9.1 sampleC ("<p>".toList) encDetOk
    ("ISO-8859-2".toList) rfl rfl rfl
  simpa using h

/-- C10: `html_process_base` always returns true; an absent or
unparseable href leaves the base URL unchanged; and target processing is
unaffected by the href outcome. -/
theorem claim_C10 :
    (∀ (c : HtmlContent) (href target : Option Str),
      (html_process_base c href target).1 = true) ∧
    (∀ (c : HtmlContent) (href target : Option Str),
      (href = none ∨ ∃ h, href = some h ∧ nsurl_create h = none) →
      (html_process_base c href target).2.base_url = c.base_url) ∧
    (∀ (c : HtmlContent) (href target : Option Str),
      (html_process_base c href target).2.base_target =
        (html_process_base c none target).2.base_target) := by
  refine ⟨html_process_base_fst, ?_, ?_⟩
  · intro c href target h
    rw [html_process_base_url]
    rcases h with h | ⟨u, hu, hcr⟩
    · simp [h]
    · simp [hu, hcr]
  · intro c href target
    rw [html_process_base_target, html_process_base_target]

/-- Witness for C10: an unparseable (empty) href with a target still
returns true, keeps the base URL, and still stores the target. -/
theorem claim_C10_witness :
    (html_process_base sampleC (some []) (some ("_blank".toList))).1 = true ∧
    (html_process_base sampleC (some [])
        (some ("_blank".toList))).2.base_url = sampleC.base_url :=
  ⟨claim_C10.1 sampleC (some []) (some ("_blank".toList)),
   claim_C10.2.1 sampleC (some []) (some ("_blank".toList))
     (Or.inr ⟨[], rfl, rfl⟩)⟩

end NetsurfHtml
